import Mathlib

/-!
Shallow embedding of `src/core/auth.py` (admin-access gating).

Python string primitives are modelled over `List Char`; the three decorator
guards are modelled as functions from the request inputs to
`Except HTTPException ρ`, where the wrapped handler is an abstract pure
function and `Except.error` models a raised `HTTPException`.
-/

/-- Python truthiness for an optional string: `None` and `""` are falsy. -/
def truthy : Option String → Bool
  | none => false
  | some s => s != ""

/-- Model of Python `str.startswith` on char lists: `pat` is an initial
segment of the second argument. -/
def startsWithList : List Char → List Char → Bool
  | [], _ => true
  | _ :: _, [] => false
  | p :: ps, c :: cs => p == c && startsWithList ps cs

/-- Model of Python `s.startswith(pat)`. -/
def pyStartsWith (s pat : String) : Bool :=
  startsWithList pat.data s.data

/-- Fuel-indexed model of Python `str.replace(old, new)` for non-empty `old`:
a single left-to-right pass replacing non-overlapping occurrences. The fuel
is initialised to the length of the subject string, which bounds the number
of recursive steps, so the fuel never runs out on the intended calls. -/
def pyReplaceAux (old new : List Char) : Nat → List Char → List Char
  | _, [] => []
  | 0, s => s
  | fuel + 1, c :: cs =>
    if startsWithList old (c :: cs) then
      new ++ pyReplaceAux old new fuel (List.drop old.length (c :: cs))
    else
      c :: pyReplaceAux old new fuel cs

/-- Model of Python `s.replace(old, new)` for non-empty `old`. -/
def pyReplace (s old new : String) : String :=
  ⟨pyReplaceAux old.data new.data s.data.length s.data⟩

/-- Occurrence test: `pat` occurs as a contiguous segment of the second
argument (used to state when replacement is the identity). -/
def hasOccurrence (pat : List Char) : List Char → Bool
  | [] => startsWithList pat []
  | c :: cs => startsWithList pat (c :: cs) || hasOccurrence pat cs

/-- Model of `extract_admin_key` from `src/core/auth.py`:
if `key` is truthy return it; else if `authorization` is truthy return
`authorization.replace("Bearer ", "")` when it starts with `"Bearer "` and
`authorization` unchanged otherwise; else return `None`. -/
def extract_admin_key (key authorization : Option String) : Option String :=
  if truthy key then key
  else if truthy authorization then
    authorization.map fun auth =>
      if pyStartsWith auth "Bearer " then pyReplace auth "Bearer " "" else auth
  else none

/-- Model of FastAPI `HTTPException(status_code, detail)` as raised by the
guards. -/
structure HTTPException where
  status_code : Nat
  detail : String
deriving DecidableEq, Repr

/-- Model of the wrapper produced by `require_path_prefix(path_seg_value)`
in `src/core/auth.py` (the source names the expected segment
`path_prefix_value` and the request segment `path_prefix`): reject with 404
when the segment differs from the configured value, otherwise call the
wrapped handler with the original segment. -/
def require_path_seg {ρ : Type} (path_seg_value : String)
    (func : String → ρ) (path_seg : String) : Except HTTPException ρ :=
  if path_seg ≠ path_seg_value then .error ⟨404, "Not Found"⟩
  else .ok (func path_seg)

/-- Model of the wrapper produced by `require_admin_auth(admin_key_value)`
in `src/core/auth.py`: extract the candidate key, reject with 404 unless it
equals the configured value, otherwise call the wrapped handler with the
original `key` and `authorization` values. -/
def require_admin_auth {ρ : Type} (admin_key_value : String)
    (func : Option String → Option String → ρ)
    (key authorization : Option String) : Except HTTPException ρ :=
  let admin_key := extract_admin_key key authorization
  if admin_key ≠ some admin_key_value then .error ⟨404, "Not Found"⟩
  else .ok (func key authorization)

/-- Model of the wrapper produced by
`require_path_and_admin(path_prefix_value, admin_key_value)` in
`src/core/auth.py`: check the path segment first, then the admin key, each
failure raising the same 404; on success call the wrapped handler with all
original inputs. -/
def require_path_and_admin {ρ : Type} (path_seg_value admin_key_value : String)
    (func : String → Option String → Option String → ρ)
    (path_seg : String) (key authorization : Option String) :
    Except HTTPException ρ :=
  if path_seg ≠ path_seg_value then .error ⟨404, "Not Found"⟩
  else
    let admin_key := extract_admin_key key authorization
    if admin_key ≠ some admin_key_value then .error ⟨404, "Not Found"⟩
    else .ok (func path_seg key authorization)

/-- Composition described by the spec (section 4.4): the path guard applied
first, wrapping the secret guard, which wraps the handler; an error raised
by the inner guard propagates through the outer wrapper. -/
def composed_guard {ρ : Type} (path_seg_value admin_key_value : String)
    (func : String → Option String → Option String → ρ)
    (path_seg : String) (key authorization : Option String) :
    Except HTTPException ρ :=
  match require_path_seg path_seg_value
      (fun pp => require_admin_auth admin_key_value
        (fun k a => func pp k a) key authorization) path_seg with
  | .error e => .error e
  | .ok inner => inner

example : extract_admin_key none (some "Bearer Bearer abc") = some "abc" := by decide
example : extract_admin_key none (some "Bearer xBearer y") = some "xy" := by decide
example : extract_admin_key none (some "Bearer ") = some "" := by decide
example : extract_admin_key none (some "xyz") = some "xyz" := by decide
example : extract_admin_key (some "k") (some "Bearer s") = some "k" := by decide
example : extract_admin_key none none = none := by decide
example : extract_admin_key (some "") (some "") = none := by decide
example : require_path_seg "adm" (fun s => s) "adm" = .ok "adm" := by rfl
example : require_path_seg "adm" (fun s => s) "Adm" = .error ⟨404, "Not Found"⟩ := by rfl
example : require_admin_auth "s3cr3t" (fun k a => (k, a)) none (some "Bearer s3cr3t")
    = .ok (none, some "Bearer s3cr3t") := by rfl

/-- A list starts with itself followed by anything. -/
theorem startsWithList_append (p t : List Char) :
    startsWithList p (p ++ t) = true := by
  induction p with
  | nil => rfl
  | cons c cs ih => simp [startsWithList, ih]

/-- When the pattern never occurs in the subject, the replacement pass copies
the subject unchanged, for every fuel value. -/
theorem pyReplaceAux_no_occ (old new : List Char) (s : List Char)
    (h : hasOccurrence old s = false) :
    ∀ fuel, pyReplaceAux old new fuel s = s := by
  induction s with
  | nil => intro fuel; cases fuel <;> rfl
  | cons c cs ih =>
    intro fuel
    simp only [hasOccurrence, Bool.or_eq_false_iff] at h
    cases fuel with
    | zero => rfl
    | succ f => simp [pyReplaceAux, h.1, ih h.2 f]

/-- Unfolding step of the replacement pass at a match position. -/
theorem pyReplaceAux_step (old new : List Char) (fuel : Nat) (s : List Char)
    (hold : old ≠ []) (hsw : startsWithList old s = true) :
    pyReplaceAux old new (fuel + 1) s
      = new ++ pyReplaceAux old new fuel (List.drop old.length s) := by
  cases s with
  | nil =>
    cases old with
    | nil => exact absurd rfl hold
    | cons p ps => simp [startsWithList] at hsw
  | cons c cs => simp [pyReplaceAux, hsw]

/-- Replacing `"Bearer "` by the empty string in `"Bearer " ++ rest` yields
`rest` whenever `"Bearer "` does not occur in `rest`. -/
theorem pyReplace_strip (rest : String)
    (h : hasOccurrence "Bearer ".data rest.data = false) :
    pyReplace ("Bearer " ++ rest) "Bearer " "" = rest := by
  have hdata : ("Bearer " ++ rest).data = "Bearer ".data ++ rest.data := rfl
  have hlen : ("Bearer ".data ++ rest.data).length = 6 + rest.data.length + 1 := by
    rw [List.length_append]
    show 7 + rest.data.length = 6 + rest.data.length + 1
    omega
  unfold pyReplace
  rw [hdata, hlen,
    pyReplaceAux_step _ _ _ _ (by decide) (startsWithList_append _ _),
    show ("".data : List Char) = [] from rfl, List.nil_append,
    show ("Bearer ".data).length = 7 from rfl,
    show (7 : Nat) = ("Bearer ".data).length from rfl, List.drop_left,
    pyReplaceAux_no_occ _ _ _ h]

/-- C1 counterexample: the header `"Bearer Bearer abc"` starts with the
literal `"Bearer "` and its remainder after that prefix is `"Bearer abc"`,
yet `extract_admin_key` does not return that remainder (it removes every
occurrence and returns `"abc"`). -/
theorem extract_bearer_remainder_cex :
    "Bearer Bearer abc" = "Bearer " ++ "Bearer abc"
    ∧ extract_admin_key none (some "Bearer Bearer abc") ≠ some "Bearer abc"
    ∧ extract_admin_key none (some "Bearer Bearer abc") = some "abc" :=
  ⟨rfl, by decide, by decide⟩

/-- C1 (amended): with the explicit value absent or empty, a header of the
form `"Bearer " ++ rest` is mapped to `rest` provided `"Bearer "` does not
occur again inside `rest` (in general the code removes every left-to-right
occurrence of `"Bearer "`), and a non-empty header that does not start with
`"Bearer "` is returned unchanged. -/
theorem extract_bearer_strip_amended (key : Option String)
    (hkey : key = none ∨ key = some "") (rest : String)
    (hno : hasOccurrence "Bearer ".data rest.data = false)
    (h2 : String) (hne2 : h2 ≠ "") (hsw2 : pyStartsWith h2 "Bearer " = false) :
    extract_admin_key key (some ("Bearer " ++ rest)) = some rest
    ∧ extract_admin_key key (some h2) = some h2 := by
  have hkf : truthy key = false := by
    rcases hkey with h | h <;> subst h <;> decide
  have hne : ("Bearer " ++ rest) ≠ "" := by
    intro hc
    have hd : ("Bearer ".data ++ rest.data : List Char) = [] := congrArg String.data hc
    have hl := congrArg List.length hd
    rw [List.length_append] at hl
    have hl7 : (7 : Nat) + rest.data.length = 0 := hl
    omega
  have hswb : pyStartsWith ("Bearer " ++ rest) "Bearer " = true := by
    show startsWithList "Bearer ".data ("Bearer ".data ++ rest.data) = true
    exact startsWithList_append _ _
  have hbt : truthy (some ("Bearer " ++ rest)) = true := by simp [truthy, hne]
  have hbt2 : truthy (some h2) = true := by simp [truthy, hne2]
  constructor
  · simp [extract_admin_key, hkf, hbt, hswb, pyReplace_strip rest hno]
  · simp [extract_admin_key, hkf, hbt2, hsw2]

/-- Witness for the amended C1 theorem at concrete inputs. -/
theorem extract_bearer_strip_amended_witness :
    ((none : Option String) = none ∨ (none : Option String) = some "")
    ∧ hasOccurrence "Bearer ".data "abc".data = false
    ∧ "xyz" ≠ ""
    ∧ pyStartsWith "xyz" "Bearer " = false
    ∧ (extract_admin_key none (some ("Bearer " ++ "abc")) = some "abc"
        ∧ extract_admin_key none (some "xyz") = some "xyz") :=
  ⟨Or.inl rfl, by decide, by decide, by decide,
    extract_bearer_strip_amended none (Or.inl rfl) "abc" (by decide) "xyz"
      (by decide) (by decide)⟩

/-- C2: the combined guard equals the composition of the path guard applied
first around the secret guard around the handler, for every configuration,
every input triple and every handler. -/
theorem combined_guard_equiv_composition {ρ : Type}
    (path_seg_value admin_key_value : String)
    (func : String → Option String → Option String → ρ)
    (path_seg : String) (key authorization : Option String) :
    composed_guard path_seg_value admin_key_value func path_seg key authorization
      = require_path_and_admin path_seg_value admin_key_value func
          path_seg key authorization := by
  unfold composed_guard require_path_seg require_admin_auth require_path_and_admin
  by_cases hp : path_seg = path_seg_value
  · by_cases hk : extract_admin_key key authorization = some admin_key_value <;>
      simp [hp, hk]
  · simp [hp]

/-- C3: the secret guard rejects with 404 exactly when the extracted
candidate is absent or differs from the configured secret, and on exact
equality it calls the wrapped handler with the original inputs. -/
theorem admin_auth_reject_iff {ρ : Type} (admin_key_value : String)
    (func : Option String → Option String → ρ) (key authorization : Option String) :
    (require_admin_auth admin_key_value func key authorization
        = .error ⟨404, "Not Found"⟩
      ↔ extract_admin_key key authorization = none
        ∨ ∃ c, extract_admin_key key authorization = some c ∧ c ≠ admin_key_value)
    ∧ (extract_admin_key key authorization = some admin_key_value →
        require_admin_auth admin_key_value func key authorization
          = .ok (func key authorization)) := by
  unfold require_admin_auth
  by_cases hk : extract_admin_key key authorization = some admin_key_value
  · constructor
    · simp only [hk]
      simp
    · intro _
      simp [hk]
  · constructor
    · simp only [if_pos hk, true_iff]
      cases hx : extract_admin_key key authorization with
      | none => exact Or.inl rfl
      | some c =>
        refine Or.inr ⟨c, rfl, fun hc => hk ?_⟩
        rw [hx, hc]
    · intro hc
      exact absurd hc hk

/-- C4: the path guard rejects with 404 exactly when the incoming segment
differs from the configured segment, and on exact equality it calls the
wrapped handler with the original segment. -/
theorem path_seg_reject_iff {ρ : Type} (path_seg_value : String)
    (func : String → ρ) (path_seg : String) :
    (require_path_seg path_seg_value func path_seg = .error ⟨404, "Not Found"⟩
      ↔ path_seg ≠ path_seg_value)
    ∧ (path_seg = path_seg_value →
        require_path_seg path_seg_value func path_seg = .ok (func path_seg)) := by
  unfold require_path_seg
  by_cases hp : path_seg = path_seg_value <;> simp [hp]

/-- Witness for C4 on both sides of the comparison. -/
theorem path_seg_reject_iff_witness :
    ("adm" : String) = "adm"
    ∧ require_path_seg "adm" (fun s => s) "adm" = .ok "adm"
    ∧ (require_path_seg "adm" (fun s => s) "Adm" = .error ⟨404, "Not Found"⟩
        ↔ ("Adm" : String) ≠ "adm") :=
  ⟨rfl, (path_seg_reject_iff "adm" (fun s => s) "adm").2 rfl,
    (path_seg_reject_iff "adm" (fun s => s) "Adm").1⟩

/-- Witness for C3 on both an accepting and a rejecting input. -/
theorem admin_auth_reject_iff_witness :
    extract_admin_key none (some "Bearer s3cr3t") = some "s3cr3t"
    ∧ require_admin_auth "s3cr3t" (fun k a => (k, a)) none (some "Bearer s3cr3t")
        = .ok (none, some "Bearer s3cr3t")
    ∧ (require_admin_auth "s3cr3t" (fun k a => (k, a)) none (some "Bearer wrong")
          = .error ⟨404, "Not Found"⟩
        ↔ extract_admin_key none (some "Bearer wrong") = none
          ∨ ∃ c, extract_admin_key none (some "Bearer wrong") = some c
              ∧ c ≠ "s3cr3t") :=
  ⟨by decide,
    (admin_auth_reject_iff "s3cr3t" (fun k a => (k, a)) none
        (some "Bearer s3cr3t")).2 (by decide),
    (admin_auth_reject_iff "s3cr3t" (fun k a => (k, a)) none
        (some "Bearer wrong")).1⟩

/-- C5: a present non-empty explicit value is always returned unchanged,
whatever the header holds. -/
theorem extract_explicit_wins (explicit_value : String)
    (h : explicit_value ≠ "") (a : Option String) :
    extract_admin_key (some explicit_value) a = some explicit_value := by
  have ht : truthy (some explicit_value) = true := by simp [truthy, h]
  simp [extract_admin_key, ht]

/-- Witness for C5 at a concrete explicit value and header. -/
theorem extract_explicit_wins_witness :
    ("k" : String) ≠ ""
    ∧ extract_admin_key (some "k") (some "Bearer other") = some "k" :=
  ⟨by decide, extract_explicit_wins "k" (by decide) (some "Bearer other")⟩

/-- C6: each of the three guards either accepts (returns an `ok` result) or
rejects with exactly status 404 and body `"Not Found"`; no other error value
is ever produced, for any configuration and any input. -/
theorem guards_reject_with_404 {ρ : Type} (path_seg_value admin_key_value : String)
    (f1 : String → ρ) (f2 : Option String → Option String → ρ)
    (f3 : String → Option String → Option String → ρ)
    (path_seg : String) (key authorization : Option String) :
    ((∃ r, require_path_seg path_seg_value f1 path_seg = .ok r)
      ∨ require_path_seg path_seg_value f1 path_seg = .error ⟨404, "Not Found"⟩)
    ∧ ((∃ r, require_admin_auth admin_key_value f2 key authorization = .ok r)
      ∨ require_admin_auth admin_key_value f2 key authorization
          = .error ⟨404, "Not Found"⟩)
    ∧ ((∃ r, require_path_and_admin path_seg_value admin_key_value f3
            path_seg key authorization = .ok r)
      ∨ require_path_and_admin path_seg_value admin_key_value f3
          path_seg key authorization = .error ⟨404, "Not Found"⟩) := by
  refine ⟨?_, ?_, ?_⟩
  · unfold require_path_seg
    by_cases hp : path_seg = path_seg_value <;> simp [hp]
  · unfold require_admin_auth
    by_cases hk : extract_admin_key key authorization = some admin_key_value <;>
      simp [hk]
  · unfold require_path_and_admin
    by_cases hp : path_seg = path_seg_value <;>
      by_cases hk : extract_admin_key key authorization = some admin_key_value <;>
        simp [hp, hk]

/-- C7: whenever a guard accepts, the value it returns is exactly the wrapped
handler applied to the original inputs (original segment, original explicit
value, original header value); otherwise it returned some error. -/
theorem guards_call_handler_with_originals {ρ : Type}
    (path_seg_value admin_key_value : String)
    (f1 : String → ρ) (f2 : Option String → Option String → ρ)
    (f3 : String → Option String → Option String → ρ)
    (path_seg : String) (key authorization : Option String) :
    ((∃ e, require_path_seg path_seg_value f1 path_seg = .error e)
      ∨ require_path_seg path_seg_value f1 path_seg = .ok (f1 path_seg))
    ∧ ((∃ e, require_admin_auth admin_key_value f2 key authorization = .error e)
      ∨ require_admin_auth admin_key_value f2 key authorization
          = .ok (f2 key authorization))
    ∧ ((∃ e, require_path_and_admin path_seg_value admin_key_value f3
            path_seg key authorization = .error e)
      ∨ require_path_and_admin path_seg_value admin_key_value f3
          path_seg key authorization = .ok (f3 path_seg key authorization)) := by
  refine ⟨?_, ?_, ?_⟩
  · unfold require_path_seg
    by_cases hp : path_seg = path_seg_value <;> simp [hp]
  · unfold require_admin_auth
    by_cases hk : extract_admin_key key authorization = some admin_key_value <;>
      simp [hk]
  · unfold require_path_and_admin
    by_cases hp : path_seg = path_seg_value <;>
      by_cases hk : extract_admin_key key authorization = some admin_key_value <;>
        simp [hp, hk]

/-- C8: extraction is a total function of its two optional inputs and
returns no candidate exactly when the explicit value is `None` or empty and
the header value is `None` or empty. -/
theorem extract_absent_iff (key authorization : Option String) :
    extract_admin_key key authorization = none
      ↔ ((key = none ∨ key = some "")
          ∧ (authorization = none ∨ authorization = some "")) := by
  cases key with
  | none =>
    cases authorization with
    | none => simp [extract_admin_key, truthy]
    | some a =>
      by_cases ha : a = "" <;> simp [extract_admin_key, truthy, ha]
  | some k =>
    by_cases hk : k = ""
    · cases authorization with
      | none => simp [extract_admin_key, truthy, hk]
      | some a =>
        by_cases ha : a = "" <;> simp [extract_admin_key, truthy, hk, ha]
    · cases authorization with
      | none => simp [extract_admin_key, truthy, hk]
      | some a =>
        by_cases ha : a = "" <;> simp [extract_admin_key, truthy, hk, ha]

/-- C9: when the header starts with `"Bearer "` the code removes every
left-to-right occurrence of `"Bearer "`, not only the leading one. -/
theorem extract_replaces_all_occurrences :
    extract_admin_key none (some "Bearer Bearer abc") = some "abc"
    ∧ extract_admin_key none (some "Bearer xBearer y") = some "xy" :=
  ⟨by decide, by decide⟩

/-- C10: the three guards are deterministic: two invocations with equal
request inputs produce equal outcomes (the same rejection or a handler call
with the same arguments). -/
theorem guards_deterministic {ρ₁ ρ₂ ρ₃ : Type}
    (path_seg_value admin_key_value : String)
    (f1 : String → ρ₁) (f2 : Option String → Option String → ρ₂)
    (f3 : String → Option String → Option String → ρ₃)
    (seg1 seg2 : String) (k1 k2 a1 a2 : Option String)
    (hs : seg1 = seg2) (hk : k1 = k2) (ha : a1 = a2) :
    require_path_seg path_seg_value f1 seg1 = require_path_seg path_seg_value f1 seg2
    ∧ require_admin_auth admin_key_value f2 k1 a1
        = require_admin_auth admin_key_value f2 k2 a2
    ∧ require_path_and_admin path_seg_value admin_key_value f3 seg1 k1 a1
        = require_path_and_admin path_seg_value admin_key_value f3 seg2 k2 a2 := by
  subst hs; subst hk; subst ha
  exact ⟨rfl, rfl, rfl⟩

/-- Witness for C10 at concrete equal inputs. -/
theorem guards_deterministic_witness :
    ("adm" : String) = "adm"
    ∧ (none : Option String) = none
    ∧ (some "Bearer s3cr3t" : Option String) = some "Bearer s3cr3t"
    ∧ (require_path_seg "adm" (fun s => s) "adm"
          = require_path_seg "adm" (fun s => s) "adm"
      ∧ require_admin_auth "s3cr3t" (fun k a => (k, a)) none (some "Bearer s3cr3t")
          = require_admin_auth "s3cr3t" (fun k a => (k, a)) none (some "Bearer s3cr3t")
      ∧ require_path_and_admin "adm" "s3cr3t" (fun p k a => (p, k, a))
            "adm" none (some "Bearer s3cr3t")
          = require_path_and_admin "adm" "s3cr3t" (fun p k a => (p, k, a))
            "adm" none (some "Bearer s3cr3t")) :=
  ⟨rfl, rfl, rfl,
    guards_deterministic "adm" "s3cr3t" (fun s => s) (fun k a => (k, a))
      (fun p k a => (p, k, a)) "adm" "adm" none none
      (some "Bearer s3cr3t") (some "Bearer s3cr3t") rfl rfl rfl⟩
